import Mathlib

/-!
Verification of the staticsync reconciliation core (`src/main.rs`).

Shallow embedding conventions:
* Bytes are `Nat` values below 256; file contents are `List Nat`.
* Machine 32-bit words are `Nat` with explicit `% 4294967296` (2^32) where
  overflow matters; SHA-1 (the `crypto` crate's `Sha1`) is implemented in
  full so that digest values are concrete.
* `FileTime` modification/access times are `Nat` (the code only ever
  compares them with `cmp` and copies them around).
* The filesystem is a map `String → Option FsFile`; fallible syscalls
  (stat, open/read, copy, set_file_times) consult an `Env` oracle that
  says which calls succeed, modelling "partial I/O, permission errors".
  A Rust `unwrap`/`expect` panic is embedded as the `SyncOutcome.aborted`
  outcome carrying the panic/expect message.
-/

/-! ## SHA-1 (the digest used by `calculate_hash`, from the `crypto` crate) -/

/-- 32-bit left rotation; `x` is assumed `< 2^32` and the result is reduced. -/
def rotl (s x : Nat) : Nat :=
  ((x <<< s) ||| (x >>> (32 - s))) % 4294967296

/-- Big-endian 8-byte encoding of a (64-bit) length in bits. -/
def be8 (n : Nat) : List Nat :=
  [(n >>> 56) % 256, (n >>> 48) % 256, (n >>> 40) % 256, (n >>> 32) % 256,
   (n >>> 24) % 256, (n >>> 16) % 256, (n >>> 8) % 256, n % 256]

/-- Big-endian 4-byte encoding of a 32-bit word. -/
def be4 (n : Nat) : List Nat :=
  [(n >>> 24) % 256, (n >>> 16) % 256, (n >>> 8) % 256, n % 256]

/-- SHA-1 padding: append `0x80`, zero-pad to 56 mod 64, append the
64-bit big-endian bit length of the message. -/
def sha1Pad (msg : List Nat) : List Nat :=
  msg ++ 128 :: List.replicate ((64 - ((msg.length + 9) % 64)) % 64) 0
      ++ be8 (msg.length * 8)

/-- Split a byte list into 64-byte blocks (fuelled so it reduces
definitionally; fuel `l.length` suffices since every step consumes 64
bytes of a non-empty list, and at fuel 0 the list is empty, where the
base case agrees). -/
def chunk64Aux : Nat → List Nat → List (List Nat)
  | 0, _ => []
  | fuel + 1, l =>
    if l.isEmpty then []
    else l.take 64 :: chunk64Aux fuel (l.drop 64)

/-- Split the padded message into 64-byte blocks. -/
def chunk64 (l : List Nat) : List (List Nat) :=
  chunk64Aux l.length l

/-- The 16 initial 32-bit words of a 64-byte block (big-endian). -/
def wordsOfBlock (block : List Nat) : List Nat :=
  (List.range 16).map fun i =>
    block.getD (4 * i) 0 * 16777216 + block.getD (4 * i + 1) 0 * 65536 +
    block.getD (4 * i + 2) 0 * 256 + block.getD (4 * i + 3) 0

/-- Extend 16 words to the 80-word SHA-1 message schedule. -/
def sha1Schedule (ws : List Nat) : List Nat :=
  (List.range 64).foldl
    (fun w i =>
      w ++ [rotl 1 (w.getD (i + 13) 0 ^^^ w.getD (i + 8) 0 ^^^
                    w.getD (i + 2) 0 ^^^ w.getD i 0)])
    ws

/-- SHA-1 round function, by round index `t`. -/
def sha1F (t b c d : Nat) : Nat :=
  if t < 20 then (b &&& c) ||| ((b ^^^ 4294967295) &&& d)
  else if t < 40 then b ^^^ c ^^^ d
  else if t < 60 then (b &&& c) ||| (b &&& d) ||| (c &&& d)
  else b ^^^ c ^^^ d

/-- SHA-1 round constant, by round index `t`. -/
def sha1K (t : Nat) : Nat :=
  if t < 20 then 1518500249
  else if t < 40 then 1859775393
  else if t < 60 then 2400959708
  else 3395469782

/-- The 80 SHA-1 rounds over one block's schedule. -/
def sha1Rounds (w : List Nat) (h : Nat × Nat × Nat × Nat × Nat) :
    Nat × Nat × Nat × Nat × Nat :=
  (List.range 80).foldl
    (fun st t =>
      let (a, b, c, d, e) := st
      ((rotl 5 a + sha1F t b c d + e + sha1K t + w.getD t 0) % 4294967296,
       a, rotl 30 b, c, d))
    h

/-- Process one 64-byte block into the running hash state. -/
def sha1Block (h : Nat × Nat × Nat × Nat × Nat) (block : List Nat) :
    Nat × Nat × Nat × Nat × Nat :=
  let (a, b, c, d, e) := sha1Rounds (sha1Schedule (wordsOfBlock block)) h
  let (h0, h1, h2, h3, h4) := h
  ((h0 + a) % 4294967296, (h1 + b) % 4294967296, (h2 + c) % 4294967296,
   (h3 + d) % 4294967296, (h4 + e) % 4294967296)

/-- SHA-1 initial state. -/
def sha1Init : Nat × Nat × Nat × Nat × Nat :=
  (1732584193, 4023233417, 2562383102, 271733878, 3285377520)

/-- SHA-1 digest of a byte list, as the 20-byte digest list. -/
def sha1Bytes (msg : List Nat) : List Nat :=
  let (h0, h1, h2, h3, h4) := (chunk64 (sha1Pad msg)).foldl sha1Block sha1Init
  be4 h0 ++ be4 h1 ++ be4 h2 ++ be4 h3 ++ be4 h4

/-- Lowercase hex character for a value below 16. -/
def hexChar (n : Nat) : Char :=
  if n < 10 then Char.ofNat (48 + n) else Char.ofNat (87 + n)

/-- Lowercase hex rendering of one byte, two characters. -/
def byteHex (b : Nat) : List Char :=
  [hexChar (b / 16), hexChar (b % 16)]

/-- `Sha1::result_str()`: the digest as a 40-character lowercase hex string. -/
def sha1Hex (msg : List Nat) : String :=
  String.mk (((sha1Bytes msg).map byteHex).flatten)

/-! ## `calculate_hash` (src/main.rs lines 165-178)

The Rust loop repeatedly calls `file.read(&mut buf)` on a buffer of length
`buffer_size`, feeds `&buf[..n]` to the hasher, and stops when
`n == 0 || n < buf.len()`.  For a regular file a read returns
`min(buffer_size, bytes remaining)`, which is how `read` is modelled here.
`readChunksAux` recurses on a fuel argument instead of well-founded
recursion so that it reduces definitionally; fuel `rest.length` always
suffices because every non-final iteration consumes `buffer_size ≥ 1`
bytes, and when fuel runs out `rest` is empty, where the base case
`[rest.take bufferSize] = [[]]` coincides with the loop's break result. -/

/-- The successive chunks the read loop feeds to the hasher (fuelled). -/
def readChunksAux (bufferSize : Nat) : Nat → List Nat → List (List Nat)
  | 0, rest => [rest.take bufferSize]
  | fuel + 1, rest =>
    let chunk := rest.take bufferSize
    if chunk.length = 0 ∨ chunk.length < bufferSize then [chunk]
    else chunk :: readChunksAux bufferSize fuel (rest.drop bufferSize)

/-- The chunks read from a file with the given content. -/
def readChunks (bufferSize : Nat) (content : List Nat) : List (List Nat) :=
  readChunksAux bufferSize content.length content

/-- All bytes fed to the hasher over the whole read loop. -/
def hashFeed (bufferSize : Nat) (content : List Nat) : List Nat :=
  (readChunks bufferSize content).flatten

/-- `calculate_hash`: SHA-1 hex digest of the bytes the read loop feeds. -/
def calculate_hash (bufferSize : Nat) (content : List Nat) : String :=
  sha1Hex (hashFeed bufferSize content)

/-! ## Filesystem and syscall model -/

/-- A regular file: its byte content, modification time and access time
(`FileTime`s, modelled as `Nat`). -/
structure FsFile where
  content : List Nat
  mtime : Nat
  atime : Nat
deriving Repr, DecidableEq

/-- The filesystem: a map from paths to files. -/
def Fs : Type := String → Option FsFile

/-- Write a file at a path (used for `copy` and `set_file_times`). -/
def Fs.write (fs : Fs) (p : String) (f : FsFile) : Fs :=
  fun q => if q = p then some f else fs q

/-- Which fallible syscalls succeed, modelling permission and device
errors.  `statOk`/`readOk` are per path; an absent file also fails stat
and open regardless of the oracle. -/
structure Env where
  statOk : String → Bool
  readOk : String → Bool
  copyOk : Bool
  setTimesOk : String → Bool

/-- `std::fs::metadata`: `some` metadata iff the file exists and the
stat call succeeds. -/
def statFile (env : Env) (fs : Fs) (p : String) : Option FsFile :=
  if env.statOk p then fs p else none

/-- One I/O action performed by `sync` on the filesystem, for stating
"no I/O beyond the two stats" and frame conditions. -/
inductive FsEvent where
  | statEvt (p : String)
  | readEvt (p : String)
  | copyEvt (src dst : String)
  | setTimesEvt (p : String)
deriving Repr, DecidableEq

/-- The paths an event touches. -/
def FsEvent.paths : FsEvent → List String
  | .statEvt p => [p]
  | .readEvt p => [p]
  | .copyEvt s d => [s, d]
  | .setTimesEvt p => [p]

/-- Outcome of one reconciliation of a pair, as the spec's
`SyncDecision`; `aborted msg` embeds a Rust `unwrap`/`expect` panic,
which kills the process. -/
inductive SyncOutcome where
  | unchanged
  | noopSameContent
  | propagated
  | aborted (msg : String)
deriving Repr, DecidableEq

/-- Panic message of `Option::unwrap` / `Result::unwrap` on a failure. -/
def unwrapMsg : String := "unwrap on an Err value"

/-- The `expect` message on the `copy` call (src/main.rs line 220). -/
def copyMsg : String := "Make sure you have permissions to copy!"

/-- The `expect` message on the `set_file_times` calls (lines 221, 226). -/
def touchMsg : String := "Make sure you have permission to modify timestamps!"

/-! ## `sync`, per pair (src/main.rs lines 186-228)

For one config entry `[p0, p1]`, `sync`:
1. stats both paths in order, `unwrap`ping each (panic on failure);
2. compares the two modification `FileTime`s; on `Equal` it `continue`s
   (decision `Unchanged`);
3. otherwise picks `(newest, oldest)` by the comparison, hashes both
   paths in order, `unwrap`ping each, and takes `atime = now`;
4. if the hex digests differ: `copy(path[newest], path[oldest])`
   (panic via `expect` on failure; the copy rewrites the destination
   content, its mtime becoming the write time) then
   `set_file_times(path[oldest], now, ftime[newest])` (panic via
   `expect` on failure), decision `Propagated`;
5. if they are equal: only `set_file_times(path[oldest], now,
   ftime[newest])` (same `expect`), decision `NoopSameContent`.

The function returns the decision, the filesystem afterwards (at the
point of death, for a panic) and the list of attempted I/O actions. -/

/-- One reconciliation of the pair `(p0, p1)` at time `now`. -/
def reconcile (env : Env) (fs : Fs) (now bufferSize : Nat) (p0 p1 : String) :
    SyncOutcome × Fs × List FsEvent :=
  match statFile env fs p0 with
  | none => (.aborted unwrapMsg, fs, [.statEvt p0])
  | some f0 =>
    match statFile env fs p1 with
    | none => (.aborted unwrapMsg, fs, [.statEvt p0, .statEvt p1])
    | some f1 =>
      if f0.mtime = f1.mtime then
        (.unchanged, fs, [.statEvt p0, .statEvt p1])
      else
        let pn := if f1.mtime < f0.mtime then p0 else p1
        let po := if f1.mtime < f0.mtime then p1 else p0
        let fn := if f1.mtime < f0.mtime then f0 else f1
        let fo := if f1.mtime < f0.mtime then f1 else f0
        if env.readOk p0 then
          if env.readOk p1 then
            let ev := [FsEvent.statEvt p0, .statEvt p1, .readEvt p0, .readEvt p1]
            if calculate_hash bufferSize f0.content ≠ calculate_hash bufferSize f1.content then
              if env.copyOk then
                let fsC := fs.write po ⟨fn.content, now, fo.atime⟩
                if env.setTimesOk po then
                  (.propagated, fsC.write po ⟨fn.content, fn.mtime, now⟩,
                   ev ++ [.copyEvt pn po, .setTimesEvt po])
                else
                  (.aborted touchMsg, fsC, ev ++ [.copyEvt pn po, .setTimesEvt po])
              else (.aborted copyMsg, fs, ev ++ [.copyEvt pn po])
            else
              if env.setTimesOk po then
                (.noopSameContent, fs.write po ⟨fo.content, fn.mtime, now⟩,
                 ev ++ [.setTimesEvt po])
              else (.aborted touchMsg, fs, ev ++ [.setTimesEvt po])
          else (.aborted unwrapMsg, fs,
                [.statEvt p0, .statEvt p1, .readEvt p0, .readEvt p1])
        else (.aborted unwrapMsg, fs, [.statEvt p0, .statEvt p1, .readEvt p0])

/-! ## Helper lemmas -/

theorem Fs.write_self (fs : Fs) (p : String) (f : FsFile) :
    fs.write p f p = some f := by
  simp [Fs.write]

theorem Fs.write_other (fs : Fs) (p : String) (f : FsFile) (q : String)
    (h : q ≠ p) : fs.write p f q = fs q := by
  simp [Fs.write, h]

/-- With a positive buffer size, the read loop's chunks concatenate back
to the whole content (the invariant `rest.length ≤ fuel` holds at every
call from `readChunks`). -/
theorem readChunksAux_flatten (bufferSize : Nat) (hbs : 0 < bufferSize) :
    ∀ (fuel : Nat) (rest : List Nat), rest.length ≤ fuel →
      (readChunksAux bufferSize fuel rest).flatten = rest := by
  intro fuel
  induction fuel with
  | zero =>
    intro rest h
    have hr : rest = [] := List.length_eq_zero.mp (Nat.le_zero.mp h)
    subst hr
    simp [readChunksAux]
  | succ fuel ih =>
    intro rest h
    simp only [readChunksAux]
    split
    · next hc =>
      rcases hc with hc | hc
      · have hr : rest = [] := by
          rw [List.length_take] at hc
          exact List.length_eq_zero.mp (by omega)
        subst hr
        simp
      · have hlen : rest.length < bufferSize := by
          rw [List.length_take] at hc
          omega
        rw [List.take_of_length_le (Nat.le_of_lt hlen)]
        simp
    · next hc =>
      push_neg at hc
      have hge : bufferSize ≤ rest.length := by
        rcases hc with ⟨hc1, hc2⟩
        rw [List.length_take] at hc2
        omega
      rw [List.flatten_cons,
          ih (rest.drop bufferSize) (by rw [List.length_drop]; omega)]
      exact List.take_append_drop bufferSize rest

/-- With a positive buffer size, `calculate_hash` feeds exactly the
file's content to the hasher. -/
theorem hashFeed_pos (bufferSize : Nat) (content : List Nat)
    (h : 0 < bufferSize) : hashFeed bufferSize content = content :=
  readChunksAux_flatten bufferSize h content.length content (Nat.le_refl _)

/-- With buffer size 0, the read loop performs exactly one (empty) read. -/
theorem readChunks_zero (content : List Nat) : readChunks 0 content = [[]] := by
  cases content <;> simp [readChunks, readChunksAux]

/-- On an empty file the first read returns 0 bytes and the loop stops. -/
theorem readChunks_nil (bs : Nat) : readChunks bs [] = [[]] := by
  simp [readChunks, readChunksAux]

/-- On an empty file nothing is fed to the hasher, for any buffer size. -/
theorem hashFeed_nil (bs : Nat) : hashFeed bs [] = [] := by
  simp [hashFeed, readChunks_nil]

/-! ## Concrete inputs used by witnesses and counterexamples -/

/-- All syscalls succeed. -/
def envW : Env := ⟨fun _ => true, fun _ => true, true, fun _ => true⟩

/-- Every stat fails (e.g., the file vanished between validation and
this tick). -/
def envNoStat : Env := ⟨fun _ => false, fun _ => true, true, fun _ => true⟩

/-- Opening files for hashing fails (e.g., permissions revoked). -/
def envNoRead : Env := ⟨fun _ => true, fun _ => false, true, fun _ => true⟩

/-- Setting timestamps fails; stats, reads and the copy succeed. -/
def envNoTouch : Env := ⟨fun _ => true, fun _ => true, true, fun _ => false⟩

/-- Newer file: content "hi", mtime 5. -/
def fA : FsFile := ⟨[104, 105], 5, 0⟩

/-- Older file with different content: "w", mtime 3. -/
def fB : FsFile := ⟨[119], 3, 1⟩

/-- Older file with the same content as `fA`: "hi", mtime 3. -/
def fC : FsFile := ⟨[104, 105], 3, 1⟩

/-- Pair with differing mtimes and differing contents. -/
def fsW : Fs := fun q =>
  if q = "/a" then some fA else if q = "/b" then some fB else none

/-- Pair with differing mtimes and identical contents. -/
def fsW2 : Fs := fun q =>
  if q = "/a" then some fA else if q = "/b" then some fC else none

/-- Pair with equal mtimes (5) and differing contents. -/
def fsW3 : Fs := fun q =>
  if q = "/a" then some fA else if q = "/b" then some ⟨[119], 5, 1⟩ else none

/-! ## Claim theorems -/

/-- Claim C3: for every pair whose two files have exactly equal
modification timestamps, `reconcile` returns `Unchanged` immediately, the
filesystem is untouched, and the I/O trace is exactly the two stat calls —
no digesting, no copying, no mutation — for every syscall oracle (in
particular one where every read, copy and retime would fail) and
regardless of the two contents. -/
theorem reconcile_unchanged_fast_path
    (env : Env) (fs : Fs) (now bs : Nat) (p0 p1 : String) (f0 f1 : FsFile)
    (h0 : fs p0 = some f0) (h1 : fs p1 = some f1)
    (hs0 : env.statOk p0 = true) (hs1 : env.statOk p1 = true)
    (hmt : f0.mtime = f1.mtime) :
    reconcile env fs now bs p0 p1 =
      (.unchanged, fs, [.statEvt p0, .statEvt p1]) := by
  simp [reconcile, statFile, hs0, hs1, h0, h1, hmt]

/-- Witness for C3: the fast path on a concrete pair with equal mtimes,
different contents, and an oracle where every read/copy/retime fails. -/
theorem reconcile_unchanged_fast_path_witness :
    reconcile ⟨fun _ => true, fun _ => false, false, fun _ => false⟩
        fsW3 9 4 "/a" "/b" =
      (.unchanged, fsW3, [.statEvt "/a", .statEvt "/b"]) :=
  reconcile_unchanged_fast_path _ fsW3 9 4 "/a" "/b" fA ⟨[119], 5, 1⟩
    rfl rfl rfl rfl rfl

set_option maxRecDepth 10000 in
/-- Claim C4 (counterexample): the digest is not independent of the
buffer size in general — with buffer size 0 the loop hashes nothing, so
on the one-byte file `[97]` buffer sizes 0 and 64 disagree. -/
theorem digest_buffer_size_counterexample :
    calculate_hash 0 [97] ≠ calculate_hash 64 [97] := by decide

/-- Claim C4 (amended): for every file content and every pair of
positive buffer sizes, `calculate_hash` returns the same digest. -/
theorem digest_buffer_size_independent_pos
    (content : List Nat) (s1 s2 : Nat) (h1 : 0 < s1) (h2 : 0 < s2) :
    calculate_hash s1 content = calculate_hash s2 content := by
  unfold calculate_hash
  rw [hashFeed_pos s1 content h1, hashFeed_pos s2 content h2]

/-- Witness for C4's amended theorem at buffer sizes 1 and 2. -/
theorem digest_buffer_size_independent_pos_witness :
    calculate_hash 1 [1, 2, 3] = calculate_hash 2 [1, 2, 3] :=
  digest_buffer_size_independent_pos [1, 2, 3] 1 2 (by decide) (by decide)

set_option maxRecDepth 10000 in
/-- Claim C5 (counterexample): the digester does not always cover the
file's entire byte content — with buffer size 0 the single read returns
an empty chunk, the loop breaks, and the digest of the one-byte file
`[97]` is the digest of no bytes, not of `[97]`. -/
theorem digest_covers_content_counterexample :
    hashFeed 0 [97] ≠ [97] ∧ calculate_hash 0 [97] ≠ sha1Hex [97] := by
  constructor
  · decide
  · decide

/-- Claim C5 (amended): for every positive buffer size the read loop
reads to end-of-file, feeding every chunk (including the final short
chunk) to the hasher, so the bytes fed are exactly the file's content
and the digest is the SHA-1 of the entire content; no file size is
consulted (`hashFeed` depends only on the byte list). -/
theorem digest_reads_to_eof_pos (content : List Nat) (bs : Nat)
    (h : 0 < bs) :
    hashFeed bs content = content ∧
    calculate_hash bs content = sha1Hex content := by
  refine ⟨hashFeed_pos bs content h, ?_⟩
  unfold calculate_hash
  rw [hashFeed_pos bs content h]

/-- Witness for C5's amended theorem: buffer size 3 on a 4-byte file,
exercising a full chunk plus a final short chunk. -/
theorem digest_reads_to_eof_pos_witness :
    hashFeed 3 [1, 2, 3, 4] = [1, 2, 3, 4] ∧
    calculate_hash 3 [1, 2, 3, 4] = sha1Hex [1, 2, 3, 4] :=
  digest_reads_to_eof_pos [1, 2, 3, 4] 3 (by decide)

set_option maxRecDepth 10000 in
/-- Claim C9: digesting an empty file succeeds for every buffer size and
returns the digest of the empty byte sequence (SHA-1 of zero bytes,
`da39a3ee5e6b4b0d3255bfef95601890afd80709`). -/
theorem digest_empty_file (bs : Nat) :
    calculate_hash bs [] = sha1Hex [] ∧
    sha1Hex [] = "da39a3ee5e6b4b0d3255bfef95601890afd80709" := by
  constructor
  · unfold calculate_hash
    rw [hashFeed_nil bs]
  · decide

/-- Claim C10: with buffer size 0, the read loop performs a single
zero-length read and `calculate_hash` returns the SHA-1 of the empty
byte sequence for every content, so any two files compare as
content-equal. -/
theorem digest_zero_buffer (content c2 : List Nat) :
    readChunks 0 content = [[]] ∧
    calculate_hash 0 content = sha1Hex [] ∧
    calculate_hash 0 content = calculate_hash 0 c2 := by
  refine ⟨readChunks_zero content, ?_, ?_⟩
  · unfold calculate_hash hashFeed
    rw [readChunks_zero content]
    rfl
  · unfold calculate_hash hashFeed
    rw [readChunks_zero content, readChunks_zero c2]

/-- Claim C1: for every pair whose files have differing modification
timestamps and differing content digests, and whose syscalls all
succeed, `reconcile` overwrites the older path with the newer file's
full content, sets the older file's mtime to the newer file's original
mtime (not `now`) and its atime to `now`, and the decision is
`Propagated`; afterwards both files have byte-identical content and
equal mtimes, and a second immediate call returns `Unchanged` without
touching the filesystem. -/
theorem reconcile_propagated_spec
    (env : Env) (fs fs2 : Fs) (now now2 bs : Nat) (p0 p1 pn po : String)
    (f0 f1 fn fo : FsFile) (d : SyncOutcome) (tr : List FsEvent)
    (h0 : fs p0 = some f0) (h1 : fs p1 = some f1)
    (hs0 : env.statOk p0 = true) (hs1 : env.statOk p1 = true)
    (hr0 : env.readOk p0 = true) (hr1 : env.readOk p1 = true)
    (hcp : env.copyOk = true)
    (ht0 : env.setTimesOk p0 = true) (ht1 : env.setTimesOk p1 = true)
    (hmt : f0.mtime ≠ f1.mtime)
    (hno : (pn, po, fn, fo) =
      if f1.mtime < f0.mtime then (p0, p1, f0, f1) else (p1, p0, f1, f0))
    (hh : calculate_hash bs f0.content ≠ calculate_hash bs f1.content)
    (hrun : reconcile env fs now bs p0 p1 = (d, fs2, tr)) :
    d = .propagated ∧
    fs2 po = some ⟨fn.content, fn.mtime, now⟩ ∧
    fs2 pn = some fn ∧
    (fs2 po).map FsFile.content = (fs2 pn).map FsFile.content ∧
    (fs2 po).map FsFile.mtime = (fs2 pn).map FsFile.mtime ∧
    reconcile env fs2 now2 bs p0 p1 =
      (.unchanged, fs2, [.statEvt p0, .statEvt p1]) := by
  have hne : p0 ≠ p1 := by
    intro he
    rw [he, h1] at h0
    exact hmt (congrArg FsFile.mtime (Option.some.inj h0)).symm
  rcases Nat.lt_trichotomy f1.mtime f0.mtime with hlt | heq | hgt
  · rw [if_pos hlt] at hno
    simp only [Prod.mk.injEq] at hno
    obtain ⟨hpn, hpo, hfn, hfo⟩ := hno
    simp only [hpn, hpo, hfn, hfo]
    have hcomp : reconcile env fs now bs p0 p1 =
        (.propagated,
         (fs.write p1 ⟨f0.content, now, f1.atime⟩).write p1
           ⟨f0.content, f0.mtime, now⟩,
         [.statEvt p0, .statEvt p1, .readEvt p0, .readEvt p1,
          .copyEvt p0 p1, .setTimesEvt p1]) := by
      simp [reconcile, statFile, hs0, hs1, h0, h1, hmt, hlt, hr0, hr1,
            hcp, ht1, hh]
    rw [hcomp] at hrun
    injection hrun with hd hrest
    injection hrest with hfs htr
    have e1 : fs2 p1 = some ⟨f0.content, f0.mtime, now⟩ := by
      rw [← hfs]; exact Fs.write_self _ p1 _
    have e0 : fs2 p0 = some f0 := by
      rw [← hfs, Fs.write_other _ p1 _ p0 hne, Fs.write_other _ p1 _ p0 hne, h0]
    refine ⟨hd.symm, e1, e0, ?_, ?_, ?_⟩
    · rw [e0, e1]; rfl
    · rw [e0, e1]; rfl
    · simp [reconcile, statFile, hs0, hs1, e0, e1]
  · exact absurd heq.symm hmt
  · rw [if_neg (Nat.lt_asymm hgt)] at hno
    simp only [Prod.mk.injEq] at hno
    obtain ⟨hpn, hpo, hfn, hfo⟩ := hno
    simp only [hpn, hpo, hfn, hfo]
    have hcomp : reconcile env fs now bs p0 p1 =
        (.propagated,
         (fs.write p0 ⟨f1.content, now, f0.atime⟩).write p0
           ⟨f1.content, f1.mtime, now⟩,
         [.statEvt p0, .statEvt p1, .readEvt p0, .readEvt p1,
          .copyEvt p1 p0, .setTimesEvt p0]) := by
      simp [reconcile, statFile, hs0, hs1, h0, h1, hmt, Nat.lt_asymm hgt,
            hr0, hr1, hcp, ht0, hh]
    rw [hcomp] at hrun
    injection hrun with hd hrest
    injection hrest with hfs htr
    have e0 : fs2 p0 = some ⟨f1.content, f1.mtime, now⟩ := by
      rw [← hfs]; exact Fs.write_self _ p0 _
    have e1 : fs2 p1 = some f1 := by
      rw [← hfs, Fs.write_other _ p0 _ p1 (Ne.symm hne),
          Fs.write_other _ p0 _ p1 (Ne.symm hne), h1]
    refine ⟨hd.symm, e0, e1, ?_, ?_, ?_⟩
    · rw [e0, e1]; rfl
    · rw [e0, e1]; rfl
    · simp [reconcile, statFile, hs0, hs1, e0, e1]

set_option maxRecDepth 10000 in
/-- Witness for C1: side `/a` has content "hi" at mtime 5, side `/b`
content "w" at mtime 3; reconciling at `now = 100` propagates `/a` to
`/b`, and a second call at `now = 101` is `Unchanged`. -/
theorem reconcile_propagated_spec_witness :
    (reconcile envW fsW 100 4 "/a" "/b").1 = .propagated ∧
    (reconcile envW fsW 100 4 "/a" "/b").2.1 "/b" =
      some ⟨fA.content, fA.mtime, 100⟩ ∧
    (reconcile envW fsW 100 4 "/a" "/b").2.1 "/a" = some fA ∧
    ((reconcile envW fsW 100 4 "/a" "/b").2.1 "/b").map FsFile.content =
      ((reconcile envW fsW 100 4 "/a" "/b").2.1 "/a").map FsFile.content ∧
    ((reconcile envW fsW 100 4 "/a" "/b").2.1 "/b").map FsFile.mtime =
      ((reconcile envW fsW 100 4 "/a" "/b").2.1 "/a").map FsFile.mtime ∧
    reconcile envW ((reconcile envW fsW 100 4 "/a" "/b").2.1) 101 4 "/a" "/b" =
      (.unchanged, (reconcile envW fsW 100 4 "/a" "/b").2.1,
       [.statEvt "/a", .statEvt "/b"]) :=
  reconcile_propagated_spec envW fsW _ 100 101 4 "/a" "/b" "/a" "/b"
    fA fB fA fB _ _ rfl rfl rfl rfl rfl rfl rfl rfl rfl (by decide)
    (by decide) (by decide) rfl

/-- Claim C2: for every pair whose files have differing modification
timestamps but identical content digests, and whose syscalls all
succeed, `reconcile` decides `NoopSameContent`, leaves both files'
bytes unchanged, and equalizes the older side's mtime to the newer
side's, so a second immediate call returns `Unchanged` with no further
hashing or mutation. -/
theorem reconcile_noop_same_content_spec
    (env : Env) (fs fs2 : Fs) (now now2 bs : Nat) (p0 p1 pn po : String)
    (f0 f1 fn fo : FsFile) (d : SyncOutcome) (tr : List FsEvent)
    (h0 : fs p0 = some f0) (h1 : fs p1 = some f1)
    (hs0 : env.statOk p0 = true) (hs1 : env.statOk p1 = true)
    (hr0 : env.readOk p0 = true) (hr1 : env.readOk p1 = true)
    (ht0 : env.setTimesOk p0 = true) (ht1 : env.setTimesOk p1 = true)
    (hmt : f0.mtime ≠ f1.mtime)
    (hno : (pn, po, fn, fo) =
      if f1.mtime < f0.mtime then (p0, p1, f0, f1) else (p1, p0, f1, f0))
    (hh : calculate_hash bs f0.content = calculate_hash bs f1.content)
    (hrun : reconcile env fs now bs p0 p1 = (d, fs2, tr)) :
    d = .noopSameContent ∧
    (fs2 p0).map FsFile.content = some f0.content ∧
    (fs2 p1).map FsFile.content = some f1.content ∧
    fs2 po = some ⟨fo.content, fn.mtime, now⟩ ∧
    fs2 pn = some fn ∧
    (fs2 po).map FsFile.mtime = (fs2 pn).map FsFile.mtime ∧
    reconcile env fs2 now2 bs p0 p1 =
      (.unchanged, fs2, [.statEvt p0, .statEvt p1]) := by
  have hne : p0 ≠ p1 := by
    intro he
    rw [he, h1] at h0
    exact hmt (congrArg FsFile.mtime (Option.some.inj h0)).symm
  rcases Nat.lt_trichotomy f1.mtime f0.mtime with hlt | heq | hgt
  · rw [if_pos hlt] at hno
    simp only [Prod.mk.injEq] at hno
    obtain ⟨hpn, hpo, hfn, hfo⟩ := hno
    simp only [hpn, hpo, hfn, hfo]
    have hcomp : reconcile env fs now bs p0 p1 =
        (.noopSameContent, fs.write p1 ⟨f1.content, f0.mtime, now⟩,
         [.statEvt p0, .statEvt p1, .readEvt p0, .readEvt p1,
          .setTimesEvt p1]) := by
      simp [reconcile, statFile, hs0, hs1, h0, h1, hmt, hlt, hr0, hr1,
            ht1, hh]
    rw [hcomp] at hrun
    injection hrun with hd hrest
    injection hrest with hfs htr
    have e1 : fs2 p1 = some ⟨f1.content, f0.mtime, now⟩ := by
      rw [← hfs]; exact Fs.write_self _ p1 _
    have e0 : fs2 p0 = some f0 := by
      rw [← hfs, Fs.write_other _ p1 _ p0 hne, h0]
    refine ⟨hd.symm, ?_, ?_, e1, e0, ?_, ?_⟩
    · rw [e0]; rfl
    · rw [e1]; rfl
    · rw [e0, e1]; rfl
    · simp [reconcile, statFile, hs0, hs1, e0, e1]
  · exact absurd heq.symm hmt
  · rw [if_neg (Nat.lt_asymm hgt)] at hno
    simp only [Prod.mk.injEq] at hno
    obtain ⟨hpn, hpo, hfn, hfo⟩ := hno
    simp only [hpn, hpo, hfn, hfo]
    have hcomp : reconcile env fs now bs p0 p1 =
        (.noopSameContent, fs.write p0 ⟨f0.content, f1.mtime, now⟩,
         [.statEvt p0, .statEvt p1, .readEvt p0, .readEvt p1,
          .setTimesEvt p0]) := by
      simp [reconcile, statFile, hs0, hs1, h0, h1, hmt, Nat.lt_asymm hgt,
            hr0, hr1, ht0, hh]
    rw [hcomp] at hrun
    injection hrun with hd hrest
    injection hrest with hfs htr
    have e0 : fs2 p0 = some ⟨f0.content, f1.mtime, now⟩ := by
      rw [← hfs]; exact Fs.write_self _ p0 _
    have e1 : fs2 p1 = some f1 := by
      rw [← hfs, Fs.write_other _ p0 _ p1 (Ne.symm hne), h1]
    refine ⟨hd.symm, ?_, ?_, e0, e1, ?_, ?_⟩
    · rw [e0]; rfl
    · rw [e1]; rfl
    · rw [e0, e1]; rfl
    · simp [reconcile, statFile, hs0, hs1, e0, e1]

set_option maxRecDepth 10000 in
/-- Witness for C2: both sides hold "hi", side `/a` at mtime 5, side
`/b` at mtime 3; reconciling at `now = 100` is `NoopSameContent`,
retimes `/b` to mtime 5, and a second call is `Unchanged`. -/
theorem reconcile_noop_same_content_spec_witness :
    (reconcile envW fsW2 100 4 "/a" "/b").1 = .noopSameContent ∧
    ((reconcile envW fsW2 100 4 "/a" "/b").2.1 "/a").map FsFile.content =
      some fA.content ∧
    ((reconcile envW fsW2 100 4 "/a" "/b").2.1 "/b").map FsFile.content =
      some fC.content ∧
    (reconcile envW fsW2 100 4 "/a" "/b").2.1 "/b" =
      some ⟨fC.content, fA.mtime, 100⟩ ∧
    (reconcile envW fsW2 100 4 "/a" "/b").2.1 "/a" = some fA ∧
    ((reconcile envW fsW2 100 4 "/a" "/b").2.1 "/b").map FsFile.mtime =
      ((reconcile envW fsW2 100 4 "/a" "/b").2.1 "/a").map FsFile.mtime ∧
    reconcile envW ((reconcile envW fsW2 100 4 "/a" "/b").2.1) 101 4 "/a" "/b" =
      (.unchanged, (reconcile envW fsW2 100 4 "/a" "/b").2.1,
       [.statEvt "/a", .statEvt "/b"]) :=
  reconcile_noop_same_content_spec envW fsW2 _ 100 101 4 "/a" "/b" "/a" "/b"
    fA fC fA fC _ _ rfl rfl rfl rfl rfl rfl rfl rfl (by decide)
    (by decide) rfl rfl

/-- Claim C6 (counterexample): a failed stat does not yield a
recoverable error value — when stat on `/a` fails at a tick (e.g., the
path became invalid after validation), the `metadata(...).unwrap()` on
line 191 panics and the process aborts; the pair is not skipped. -/
theorem stat_failure_panics_counterexample :
    (reconcile envNoStat fsW 0 1 "/a" "/b").1 = .aborted unwrapMsg ∧
    (reconcile envNoStat fsW 0 1 "/a" "/b").2.1 = fsW := by
  exact ⟨rfl, rfl⟩

/-- Claim C6 (amended): errors in the core ARE fatal: a failed stat on
either side, and a read failure while hashing (when timestamps differ),
each cause an `unwrap` panic that aborts the process with the
filesystem unchanged; no recoverable error value is produced and the
pair is not skipped-and-retried. -/
theorem error_handling_fatal
    (env : Env) (fs : Fs) (now bs : Nat) (p0 p1 : String) :
    ((statFile env fs p0 = none ∨ statFile env fs p1 = none) →
      (reconcile env fs now bs p0 p1).1 = .aborted unwrapMsg ∧
      (reconcile env fs now bs p0 p1).2.1 = fs) ∧
    (∀ f0 f1 : FsFile, statFile env fs p0 = some f0 →
      statFile env fs p1 = some f1 → f0.mtime ≠ f1.mtime →
      (env.readOk p0 = false ∨ env.readOk p1 = false) →
      (reconcile env fs now bs p0 p1).1 = .aborted unwrapMsg ∧
      (reconcile env fs now bs p0 p1).2.1 = fs) := by
  constructor
  · intro h
    rcases h with h | h
    · simp [reconcile, h]
    · cases hm0 : statFile env fs p0 with
      | none => simp [reconcile, hm0]
      | some f0 => simp [reconcile, hm0, h]
  · intro f0 f1 hm0 hm1 hmt hro
    rcases hro with hro | hro
    · simp [reconcile, hm0, hm1, hmt, hro]
    · by_cases hrp : env.readOk p0 = true <;>
        simp [reconcile, hm0, hm1, hmt, hro, hrp]

/-- Witness for C6's amended theorem: a concrete all-stats-fail oracle
and a concrete read-failure oracle, on the pair `/a`, `/b`. -/
theorem error_handling_fatal_witness :
    ((reconcile envNoStat fsW 0 1 "/a" "/b").1 = .aborted unwrapMsg ∧
     (reconcile envNoStat fsW 0 1 "/a" "/b").2.1 = fsW) ∧
    ((reconcile envNoRead fsW 0 1 "/a" "/b").1 = .aborted unwrapMsg ∧
     (reconcile envNoRead fsW 0 1 "/a" "/b").2.1 = fsW) :=
  ⟨(error_handling_fatal envNoStat fsW 0 1 "/a" "/b").1 (Or.inl rfl),
   (error_handling_fatal envNoRead fsW 0 1 "/a" "/b").2 fA fB rfl rfl
     (by decide) (Or.inl rfl)⟩

set_option maxRecDepth 10000 in
/-- Claim C7 (counterexample): when the copy succeeds but the timestamp
update fails, the `expect` on line 221 panics — the condition is fatal,
not a warning: on the concrete pair `/a` ("hi", mtime 5) and `/b` ("w",
mtime 3) with `set_file_times` failing, the outcome is the panic with
the expect message, and `/b` is left holding the copied content. -/
theorem timestamp_failure_panics_counterexample :
    (reconcile envNoTouch fsW 7 4 "/a" "/b").1 = .aborted touchMsg ∧
    (reconcile envNoTouch fsW 7 4 "/a" "/b").2.1 "/b" =
      some ⟨fA.content, 7, fB.atime⟩ := by
  constructor
  · decide
  · decide

/-- Claim C7 (amended): when the content copy succeeds but the
subsequent `set_file_times` fails, `sync` panics via `expect` with the
timestamp message — fatal to the process, neither silently treated as
success nor reported as a non-fatal warning; the older path already
holds the newer content (with mtime `now` from the write) and no other
path changed. -/
theorem timestamp_update_failure_aborts
    (env : Env) (fs fs2 : Fs) (now bs : Nat) (p0 p1 pn po : String)
    (f0 f1 fn fo : FsFile) (d : SyncOutcome) (tr : List FsEvent)
    (h0 : fs p0 = some f0) (h1 : fs p1 = some f1)
    (hs0 : env.statOk p0 = true) (hs1 : env.statOk p1 = true)
    (hr0 : env.readOk p0 = true) (hr1 : env.readOk p1 = true)
    (hcp : env.copyOk = true) (hto : env.setTimesOk po = false)
    (hmt : f0.mtime ≠ f1.mtime)
    (hno : (pn, po, fn, fo) =
      if f1.mtime < f0.mtime then (p0, p1, f0, f1) else (p1, p0, f1, f0))
    (hh : calculate_hash bs f0.content ≠ calculate_hash bs f1.content)
    (hrun : reconcile env fs now bs p0 p1 = (d, fs2, tr)) :
    d = .aborted touchMsg ∧
    fs2 po = some ⟨fn.content, now, fo.atime⟩ ∧
    (∀ q, q ≠ po → fs2 q = fs q) := by
  rcases Nat.lt_trichotomy f1.mtime f0.mtime with hlt | heq | hgt
  · rw [if_pos hlt] at hno
    simp only [Prod.mk.injEq] at hno
    obtain ⟨hpn, hpo, hfn, hfo⟩ := hno
    simp only [hpn, hpo, hfn, hfo]
    rw [hpo] at hto
    have hcomp : reconcile env fs now bs p0 p1 =
        (.aborted touchMsg, fs.write p1 ⟨f0.content, now, f1.atime⟩,
         [.statEvt p0, .statEvt p1, .readEvt p0, .readEvt p1,
          .copyEvt p0 p1, .setTimesEvt p1]) := by
      simp [reconcile, statFile, hs0, hs1, h0, h1, hmt, hlt, hr0, hr1,
            hcp, hto, hh]
    rw [hcomp] at hrun
    injection hrun with hd hrest
    injection hrest with hfs htr
    refine ⟨hd.symm, ?_, ?_⟩
    · rw [← hfs]; exact Fs.write_self _ p1 _
    · intro q hq
      rw [← hfs]; exact Fs.write_other _ p1 _ q hq
  · exact absurd heq.symm hmt
  · rw [if_neg (Nat.lt_asymm hgt)] at hno
    simp only [Prod.mk.injEq] at hno
    obtain ⟨hpn, hpo, hfn, hfo⟩ := hno
    simp only [hpn, hpo, hfn, hfo]
    rw [hpo] at hto
    have hcomp : reconcile env fs now bs p0 p1 =
        (.aborted touchMsg, fs.write p0 ⟨f1.content, now, f0.atime⟩,
         [.statEvt p0, .statEvt p1, .readEvt p0, .readEvt p1,
          .copyEvt p1 p0, .setTimesEvt p0]) := by
      simp [reconcile, statFile, hs0, hs1, h0, h1, hmt, Nat.lt_asymm hgt,
            hr0, hr1, hcp, hto, hh]
    rw [hcomp] at hrun
    injection hrun with hd hrest
    injection hrest with hfs htr
    refine ⟨hd.symm, ?_, ?_⟩
    · rw [← hfs]; exact Fs.write_self _ p0 _
    · intro q hq
      rw [← hfs]; exact Fs.write_other _ p0 _ q hq

set_option maxRecDepth 10000 in
/-- Witness for C7's amended theorem on the concrete pair `/a`, `/b`
with a failing `set_file_times`. -/
theorem timestamp_update_failure_aborts_witness :
    (reconcile envNoTouch fsW 7 4 "/a" "/b").1 = .aborted touchMsg ∧
    (reconcile envNoTouch fsW 7 4 "/a" "/b").2.1 "/b" =
      some ⟨fA.content, 7, fB.atime⟩ ∧
    (∀ q, q ≠ "/b" →
      (reconcile envNoTouch fsW 7 4 "/a" "/b").2.1 q = fsW q) :=
  timestamp_update_failure_aborts envNoTouch fsW _ 7 4 "/a" "/b" "/a" "/b"
    fA fB fA fB _ _ rfl rfl rfl rfl rfl rfl rfl rfl (by decide)
    (by decide) (by decide) rfl

set_option maxHeartbeats 1000000 in
/-- Claim C8: frame condition — whatever one reconciliation of the pair
`(p0, p1)` does (fast path, retime, copy, or a panic at any point), the
only path whose entry can change is the older side `po`; every other
path (in particular the newer side) keeps its content and timestamps;
the older path still holds a file whose content is one of the pair's
two contents; and every I/O action in the trace touches only the
pair's own two paths (no other files, and the model has no network or
persisted state). -/
theorem reconcile_frame_effects
    (env : Env) (fs : Fs) (now bs : Nat) (p0 p1 po : String)
    (f0 f1 : FsFile)
    (h0 : fs p0 = some f0) (h1 : fs p1 = some f1)
    (hpo : po = if f1.mtime < f0.mtime then p1 else p0) :
    (∀ q, q ≠ po → (reconcile env fs now bs p0 p1).2.1 q = fs q) ∧
    (∃ f2, (reconcile env fs now bs p0 p1).2.1 po = some f2 ∧
      (f2.content = f0.content ∨ f2.content = f1.content)) ∧
    (∀ e ∈ (reconcile env fs now bs p0 p1).2.2,
      ∀ q ∈ FsEvent.paths e, q = p0 ∨ q = p1) := by
  rcases Nat.lt_trichotomy f1.mtime f0.mtime with hlt | heq | hgt
  · rw [if_pos hlt] at hpo
    rw [hpo]
    have hmt : f0.mtime ≠ f1.mtime := by omega
    by_cases hS0 : env.statOk p0 = true
    · by_cases hS1 : env.statOk p1 = true
      · by_cases hR0 : env.readOk p0 = true
        · by_cases hR1 : env.readOk p1 = true
          · by_cases hHash :
              calculate_hash bs f0.content = calculate_hash bs f1.content
            · by_cases hT : env.setTimesOk p1 = true
              · have hcomp : reconcile env fs now bs p0 p1 =
                    (.noopSameContent,
                     fs.write p1 ⟨f1.content, f0.mtime, now⟩,
                     [.statEvt p0, .statEvt p1, .readEvt p0, .readEvt p1,
                      .setTimesEvt p1]) := by
                  simp [reconcile, statFile, hS0, hS1, h0, h1, hmt, hlt,
                        hR0, hR1, hHash, hT]
                rw [hcomp]
                refine ⟨?_, ⟨⟨f1.content, f0.mtime, now⟩,
                  Fs.write_self _ _ _, Or.inr rfl⟩, ?_⟩
                · intro q hq; exact Fs.write_other _ _ _ q hq
                · intro e he q hq
                  fin_cases he <;> (simp [FsEvent.paths] at hq; tauto)
              · have hcomp : reconcile env fs now bs p0 p1 =
                    (.aborted touchMsg, fs,
                     [.statEvt p0, .statEvt p1, .readEvt p0, .readEvt p1,
                      .setTimesEvt p1]) := by
                  simp [reconcile, statFile, hS0, hS1, h0, h1, hmt, hlt,
                        hR0, hR1, hHash, hT]
                rw [hcomp]
                refine ⟨fun q _ => rfl, ⟨f1, h1, Or.inr rfl⟩, ?_⟩
                intro e he q hq
                fin_cases he <;> (simp [FsEvent.paths] at hq; tauto)
            · by_cases hC : env.copyOk = true
              · by_cases hT : env.setTimesOk p1 = true
                · have hcomp : reconcile env fs now bs p0 p1 =
                      (.propagated,
                       (fs.write p1 ⟨f0.content, now, f1.atime⟩).write p1
                         ⟨f0.content, f0.mtime, now⟩,
                       [.statEvt p0, .statEvt p1, .readEvt p0, .readEvt p1,
                        .copyEvt p0 p1, .setTimesEvt p1]) := by
                    simp [reconcile, statFile, hS0, hS1, h0, h1, hmt, hlt,
                          hR0, hR1, hHash, hC, hT]
                  rw [hcomp]
                  refine ⟨?_, ⟨⟨f0.content, f0.mtime, now⟩,
                    Fs.write_self _ _ _, Or.inl rfl⟩, ?_⟩
                  · intro q hq
                    exact (Fs.write_other _ _ _ q hq).trans
                      (Fs.write_other _ _ _ q hq)
                  · intro e he q hq
                    fin_cases he <;> (simp [FsEvent.paths] at hq; tauto)
                · have hcomp : reconcile env fs now bs p0 p1 =
                      (.aborted touchMsg,
                       fs.write p1 ⟨f0.content, now, f1.atime⟩,
                       [.statEvt p0, .statEvt p1, .readEvt p0, .readEvt p1,
                        .copyEvt p0 p1, .setTimesEvt p1]) := by
                    simp [reconcile, statFile, hS0, hS1, h0, h1, hmt, hlt,
                          hR0, hR1, hHash, hC, hT]
                  rw [hcomp]
                  refine ⟨?_, ⟨⟨f0.content, now, f1.atime⟩,
                    Fs.write_self _ _ _, Or.inl rfl⟩, ?_⟩
                  · intro q hq; exact Fs.write_other _ _ _ q hq
                  · intro e he q hq
                    fin_cases he <;> (simp [FsEvent.paths] at hq; tauto)
              · have hcomp : reconcile env fs now bs p0 p1 =
                    (.aborted copyMsg, fs,
                     [.statEvt p0, .statEvt p1, .readEvt p0, .readEvt p1,
                      .copyEvt p0 p1]) := by
                  simp [reconcile, statFile, hS0, hS1, h0, h1, hmt, hlt,
                        hR0, hR1, hHash, hC]
                rw [hcomp]
                refine ⟨fun q _ => rfl, ⟨f1, h1, Or.inr rfl⟩, ?_⟩
                intro e he q hq
                fin_cases he <;> (simp [FsEvent.paths] at hq; tauto)
          · have hcomp : reconcile env fs now bs p0 p1 =
                (.aborted unwrapMsg, fs,
                 [.statEvt p0, .statEvt p1, .readEvt p0, .readEvt p1]) := by
              simp [reconcile, statFile, hS0, hS1, h0, h1, hmt, hR0, hR1]
            rw [hcomp]
            refine ⟨fun q _ => rfl, ⟨f1, h1, Or.inr rfl⟩, ?_⟩
            intro e he q hq
            fin_cases he <;> (simp [FsEvent.paths] at hq; tauto)
        · have hcomp : reconcile env fs now bs p0 p1 =
              (.aborted unwrapMsg, fs,
               [.statEvt p0, .statEvt p1, .readEvt p0]) := by
            simp [reconcile, statFile, hS0, hS1, h0, h1, hmt, hR0]
          rw [hcomp]
          refine ⟨fun q _ => rfl, ⟨f1, h1, Or.inr rfl⟩, ?_⟩
          intro e he q hq
          fin_cases he <;> (simp [FsEvent.paths] at hq; tauto)
      · have hcomp : reconcile env fs now bs p0 p1 =
            (.aborted unwrapMsg, fs, [.statEvt p0, .statEvt p1]) := by
          simp [reconcile, statFile, hS0, hS1, h0]
        rw [hcomp]
        refine ⟨fun q _ => rfl, ⟨f1, h1, Or.inr rfl⟩, ?_⟩
        intro e he q hq
        fin_cases he <;> (simp [FsEvent.paths] at hq; tauto)
    · have hcomp : reconcile env fs now bs p0 p1 =
          (.aborted unwrapMsg, fs, [.statEvt p0]) := by
        simp [reconcile, statFile, hS0]
      rw [hcomp]
      refine ⟨fun q _ => rfl, ⟨f1, h1, Or.inr rfl⟩, ?_⟩
      intro e he q hq
      fin_cases he <;> (simp [FsEvent.paths] at hq; tauto)
  · rw [if_neg (by omega)] at hpo
    rw [hpo]
    by_cases hS0 : env.statOk p0 = true
    · by_cases hS1 : env.statOk p1 = true
      · have hcomp : reconcile env fs now bs p0 p1 =
            (.unchanged, fs, [.statEvt p0, .statEvt p1]) := by
          simp [reconcile, statFile, hS0, hS1, h0, h1, heq]
        rw [hcomp]
        refine ⟨fun q _ => rfl, ⟨f0, h0, Or.inl rfl⟩, ?_⟩
        intro e he q hq
        fin_cases he <;> (simp [FsEvent.paths] at hq; tauto)
      · have hcomp : reconcile env fs now bs p0 p1 =
            (.aborted unwrapMsg, fs, [.statEvt p0, .statEvt p1]) := by
          simp [reconcile, statFile, hS0, hS1, h0]
        rw [hcomp]
        refine ⟨fun q _ => rfl, ⟨f0, h0, Or.inl rfl⟩, ?_⟩
        intro e he q hq
        fin_cases he <;> (simp [FsEvent.paths] at hq; tauto)
    · have hcomp : reconcile env fs now bs p0 p1 =
          (.aborted unwrapMsg, fs, [.statEvt p0]) := by
        simp [reconcile, statFile, hS0]
      rw [hcomp]
      refine ⟨fun q _ => rfl, ⟨f0, h0, Or.inl rfl⟩, ?_⟩
      intro e he q hq
      fin_cases he <;> (simp [FsEvent.paths] at hq; tauto)
  · rw [if_neg (Nat.lt_asymm hgt)] at hpo
    rw [hpo]
    have hmt : f0.mtime ≠ f1.mtime := by omega
    have hnlt : ¬ f1.mtime < f0.mtime := Nat.lt_asymm hgt
    by_cases hS0 : env.statOk p0 = true
    · by_cases hS1 : env.statOk p1 = true
      · by_cases hR0 : env.readOk p0 = true
        · by_cases hR1 : env.readOk p1 = true
          · by_cases hHash :
              calculate_hash bs f0.content = calculate_hash bs f1.content
            · by_cases hT : env.setTimesOk p0 = true
              · have hcomp : reconcile env fs now bs p0 p1 =
                    (.noopSameContent,
                     fs.write p0 ⟨f0.content, f1.mtime, now⟩,
                     [.statEvt p0, .statEvt p1, .readEvt p0, .readEvt p1,
                      .setTimesEvt p0]) := by
                  simp [reconcile, statFile, hS0, hS1, h0, h1, hmt, hnlt,
                        hR0, hR1, hHash, hT]
                rw [hcomp]
                refine ⟨?_, ⟨⟨f0.content, f1.mtime, now⟩,
                  Fs.write_self _ _ _, Or.inl rfl⟩, ?_⟩
                · intro q hq; exact Fs.write_other _ _ _ q hq
                · intro e he q hq
                  fin_cases he <;> (simp [FsEvent.paths] at hq; tauto)
              · have hcomp : reconcile env fs now bs p0 p1 =
                    (.aborted touchMsg, fs,
                     [.statEvt p0, .statEvt p1, .readEvt p0, .readEvt p1,
                      .setTimesEvt p0]) := by
                  simp [reconcile, statFile, hS0, hS1, h0, h1, hmt, hnlt,
                        hR0, hR1, hHash, hT]
                rw [hcomp]
                refine ⟨fun q _ => rfl, ⟨f0, h0, Or.inl rfl⟩, ?_⟩
                intro e he q hq
                fin_cases he <;> (simp [FsEvent.paths] at hq; tauto)
            · by_cases hC : env.copyOk = true
              · by_cases hT : env.setTimesOk p0 = true
                · have hcomp : reconcile env fs now bs p0 p1 =
                      (.propagated,
                       (fs.write p0 ⟨f1.content, now, f0.atime⟩).write p0
                         ⟨f1.content, f1.mtime, now⟩,
                       [.statEvt p0, .statEvt p1, .readEvt p0, .readEvt p1,
                        .copyEvt p1 p0, .setTimesEvt p0]) := by
                    simp [reconcile, statFile, hS0, hS1, h0, h1, hmt, hnlt,
                          hR0, hR1, hHash, hC, hT]
                  rw [hcomp]
                  refine ⟨?_, ⟨⟨f1.content, f1.mtime, now⟩,
                    Fs.write_self _ _ _, Or.inr rfl⟩, ?_⟩
                  · intro q hq
                    exact (Fs.write_other _ _ _ q hq).trans
                      (Fs.write_other _ _ _ q hq)
                  · intro e he q hq
                    fin_cases he <;> (simp [FsEvent.paths] at hq; tauto)
                · have hcomp : reconcile env fs now bs p0 p1 =
                      (.aborted touchMsg,
                       fs.write p0 ⟨f1.content, now, f0.atime⟩,
                       [.statEvt p0, .statEvt p1, .readEvt p0, .readEvt p1,
                        .copyEvt p1 p0, .setTimesEvt p0]) := by
                    simp [reconcile, statFile, hS0, hS1, h0, h1, hmt, hnlt,
                          hR0, hR1, hHash, hC, hT]
                  rw [hcomp]
                  refine ⟨?_, ⟨⟨f1.content, now, f0.atime⟩,
                    Fs.write_self _ _ _, Or.inr rfl⟩, ?_⟩
                  · intro q hq; exact Fs.write_other _ _ _ q hq
                  · intro e he q hq
                    fin_cases he <;> (simp [FsEvent.paths] at hq; tauto)
              · have hcomp : reconcile env fs now bs p0 p1 =
                    (.aborted copyMsg, fs,
                     [.statEvt p0, .statEvt p1, .readEvt p0, .readEvt p1,
                      .copyEvt p1 p0]) := by
                  simp [reconcile, statFile, hS0, hS1, h0, h1, hmt, hnlt,
                        hR0, hR1, hHash, hC]
                rw [hcomp]
                refine ⟨fun q _ => rfl, ⟨f0, h0, Or.inl rfl⟩, ?_⟩
                intro e he q hq
                fin_cases he <;> (simp [FsEvent.paths] at hq; tauto)
          · have hcomp : reconcile env fs now bs p0 p1 =
                (.aborted unwrapMsg, fs,
                 [.statEvt p0, .statEvt p1, .readEvt p0, .readEvt p1]) := by
              simp [reconcile, statFile, hS0, hS1, h0, h1, hmt, hR0, hR1]
            rw [hcomp]
            refine ⟨fun q _ => rfl, ⟨f0, h0, Or.inl rfl⟩, ?_⟩
            intro e he q hq
            fin_cases he <;> (simp [FsEvent.paths] at hq; tauto)
        · have hcomp : reconcile env fs now bs p0 p1 =
              (.aborted unwrapMsg, fs,
               [.statEvt p0, .statEvt p1, .readEvt p0]) := by
            simp [reconcile, statFile, hS0, hS1, h0, h1, hmt, hR0]
          rw [hcomp]
          refine ⟨fun q _ => rfl, ⟨f0, h0, Or.inl rfl⟩, ?_⟩
          intro e he q hq
          fin_cases he <;> (simp [FsEvent.paths] at hq; tauto)
      · have hcomp : reconcile env fs now bs p0 p1 =
            (.aborted unwrapMsg, fs, [.statEvt p0, .statEvt p1]) := by
          simp [reconcile, statFile, hS0, hS1, h0]
        rw [hcomp]
        refine ⟨fun q _ => rfl, ⟨f0, h0, Or.inl rfl⟩, ?_⟩
        intro e he q hq
        fin_cases he <;> (simp [FsEvent.paths] at hq; tauto)
    · have hcomp : reconcile env fs now bs p0 p1 =
          (.aborted unwrapMsg, fs, [.statEvt p0]) := by
        simp [reconcile, statFile, hS0]
      rw [hcomp]
      refine ⟨fun q _ => rfl, ⟨f0, h0, Or.inl rfl⟩, ?_⟩
      intro e he q hq
      fin_cases he <;> (simp [FsEvent.paths] at hq; tauto)

/-- Witness for C8 on the concrete propagation pair. -/
theorem reconcile_frame_effects_witness :
    (∀ q, q ≠ "/b" →
      (reconcile envW fsW 100 4 "/a" "/b").2.1 q = fsW q) ∧
    (∃ f2, (reconcile envW fsW 100 4 "/a" "/b").2.1 "/b" = some f2 ∧
      (f2.content = fA.content ∨ f2.content = fB.content)) ∧
    (∀ e ∈ (reconcile envW fsW 100 4 "/a" "/b").2.2,
      ∀ q ∈ FsEvent.paths e, q = "/a" ∨ q = "/b") :=
  reconcile_frame_effects envW fsW 100 4 "/a" "/b" "/b" fA fB rfl rfl
    (by decide)
